import Mathlib

/-!
Shallow embedding of the Convex backend module `src/convex/posts.ts` of the
Momento repository: a social-media feed (posts, likes, comments, bookmarks,
notifications) over a document database.  Tables are modelled as lists of
records, document ids as natural numbers, JavaScript number counters as
integers, and each mutation handler as a pure function from an authentication
context and a database state to a result that carries the database state
(errors carry the state at the moment of the throw; in the source every throw
precedes the first write).
-/

/-- A record of the `users` table (fields used by `posts.ts`). -/
structure User where
  _id : Nat
  clerkId : String
  username : String
  image : String
  posts : Int
deriving Repr, DecidableEq

/-- A record of the `posts` table.  `_creationTime` is the system field Convex
attaches to every document and orders `.order("desc")` queries by. -/
structure Post where
  _id : Nat
  userId : Nat
  imageUrl : String
  storageId : Nat
  caption : Option String
  likes : Int
  comments : Int
  _creationTime : Nat
deriving Repr, DecidableEq

/-- A record of the `likes` table. -/
structure Like where
  _id : Nat
  userId : Nat
  postId : Nat
deriving Repr, DecidableEq

/-- A record of the `comments` table (only the fields `posts.ts` touches). -/
structure Comment where
  _id : Nat
  postId : Nat
deriving Repr, DecidableEq

/-- A record of the `bookmarks` table. -/
structure Bookmark where
  _id : Nat
  userId : Nat
  postId : Nat
deriving Repr, DecidableEq

/-- A record of the `notifications` table. -/
structure Notification where
  _id : Nat
  receiverId : Nat
  senderId : Nat
  type : String
  postId : Nat
deriving Repr, DecidableEq

/-- The database state: one list per table, the set of stored files as a list
of storage ids, a fresh-id counter (Convex allocates a unique id for every
inserted document) and a clock for `_creationTime`. -/
structure DB where
  users : List User
  posts : List Post
  likes : List Like
  comments : List Comment
  bookmarks : List Bookmark
  notifications : List Notification
  storage : List Nat
  nextId : Nat
  nextTime : Nat
deriving Repr, DecidableEq

/-- Result of a handler: `ok value db` on normal return, `err msg db` when the
handler throws `new Error(msg)` with `db` the state at the throw. -/
inductive Res (α : Type) where
  | ok : α → DB → Res α
  | err : String → DB → Res α
deriving Repr, DecidableEq

/-- `ctx.storage.getUrl(storageId)`: the public URL when the file exists,
`null` otherwise. -/
def storageGetUrl (db : DB) (storageId : Nat) : Option String :=
  if db.storage.contains storageId then some (toString storageId) else none

/-- `ctx.db.patch(postId, { likes: v })`: update the `likes` field of the post
with the given id. -/
def patchPostLikes (db : DB) (postId : Nat) (v : Int) : DB :=
  { db with posts := db.posts.map fun p =>
      if p._id == postId then { p with likes := v } else p }

/-- `ctx.db.patch(userId, { posts: v })`: update the `posts` counter of the
user with the given id. -/
def patchUserPosts (db : DB) (userId : Nat) (v : Int) : DB :=
  { db with users := db.users.map fun u =>
      if u._id == userId then { u with posts := v } else u }

/-- Modelled from the spec: the helper `getAunthenticatedUser` is imported by
`posts.ts` from `convex/users.ts`, whose source is not part of the snapshot.
Per the spec, every operation runs "authenticate caller → look up related
record(s) by index → mutate ... or signal an Unauthorized / not found
failure": with no caller identity it throws `"Unauthorized"`, otherwise it
returns the caller's `users` record looked up by Clerk id. -/
def getAunthenticatedUser (auth : Option String) (db : DB) : Except String User :=
  match auth with
  | none => .error "Unauthorized"
  | some subject =>
    match db.users.find? (fun u => u.clerkId == subject) with
    | none => .error "User not found"
    | some u => .ok u

/-- Mutation `generateUploadUrl` of `posts.ts`: throws `"Unauthorized"` with no
identity, otherwise hands out a fresh upload URL (no table is written). -/
def generateUploadUrl (auth : Option String) (db : DB) : Res String :=
  match auth with
  | none => .err "Unauthorized" db
  | some _ => .ok (toString db.nextId) db

/-- Arguments of the `createPost` mutation. -/
structure CreatePostArgs where
  caption : Option String
  storageId : Nat
deriving Repr, DecidableEq

/-- Mutation `createPost` of `posts.ts`: authenticate, look the caller up by
Clerk id, resolve the image URL, insert the new post with both counters at 0,
and patch the caller's `posts` counter to `currentUser.posts + 1`. -/
def createPost (auth : Option String) (args : CreatePostArgs) (db : DB) : Res Nat :=
  match auth with
  | none => .err "Unauthorized" db
  | some subject =>
    match db.users.find? (fun u => u.clerkId == subject) with
    | none => .err "User not found" db
    | some currentUser =>
      match storageGetUrl db args.storageId with
      | none => .err "Image not found" db
      | some imageUrl =>
        let postId := db.nextId
        let newPost : Post :=
          { _id := postId, userId := currentUser._id, imageUrl := imageUrl,
            storageId := args.storageId, caption := args.caption,
            likes := 0, comments := 0, _creationTime := db.nextTime }
        let db1 : DB :=
          { db with posts := db.posts ++ [newPost],
                    nextId := db.nextId + 1, nextTime := db.nextTime + 1 }
        .ok postId (patchUserPosts db1 currentUser._id (currentUser.posts + 1))

/-- The author summary `getFeedPosts` attaches to each post. -/
structure Author where
  _id : Option Nat
  username : Option String
  image : Option String
deriving Repr, DecidableEq

/-- One element of the feed: the post enriched with its author and the current
user's like / bookmark status. -/
structure FeedPost where
  post : Post
  author : Author
  isLiked : Bool
  isBookmarked : Bool
deriving Repr, DecidableEq

/-- Query `getFeedPosts` of `posts.ts`: authenticate, fetch all posts in
descending creation order (`.order("desc")`; documents sit in the table in
creation order, so descending order is the reverse of the table), and enrich
each post with its author record and the caller's like / bookmark flags. -/
def getFeedPosts (auth : Option String) (db : DB) : Res (List FeedPost) :=
  match getAunthenticatedUser auth db with
  | .error e => .err e db
  | .ok currentUser =>
    let posts := db.posts.reverse
    if posts.length == 0 then .ok [] db
    else
      .ok (posts.map fun post =>
        let postAuthor := db.users.find? (fun u => u._id == post.userId)
        let like := db.likes.find? fun l =>
          l.userId == currentUser._id && l.postId == post._id
        let bookmark := db.bookmarks.find? fun b =>
          b.userId == currentUser._id && b.postId == post._id
        { post := post,
          author := { _id := postAuthor.map (fun u => u._id),
                      username := postAuthor.map (fun u => u.username),
                      image := postAuthor.map (fun u => u.image) },
          isLiked := like.isSome,
          isBookmarked := bookmark.isSome }) db

/-- Mutation `toggleLike` of `posts.ts`: authenticate, look for the caller's
existing like on the post, throw `"Post not found"` if the post is missing;
then either delete the like and decrement the counter (returning `false`), or
insert a like, increment the counter, notify the post owner when the caller is
not the owner, and return `true`. -/
def toggleLike (auth : Option String) (postId : Nat) (db : DB) : Res Bool :=
  match getAunthenticatedUser auth db with
  | .error e => .err e db
  | .ok currentUser =>
    let existingLike := db.likes.find? fun l =>
      l.userId == currentUser._id && l.postId == postId
    match db.posts.find? (fun p => p._id == postId) with
    | none => .err "Post not found" db
    | some post =>
      match existingLike with
      | some like =>
        let db1 : DB := { db with likes := db.likes.filter fun l => l._id != like._id }
        .ok false (patchPostLikes db1 postId (post.likes - 1))
      | none =>
        let newLike : Like := { _id := db.nextId, userId := currentUser._id, postId := postId }
        let db1 : DB := { db with likes := db.likes ++ [newLike], nextId := db.nextId + 1 }
        let db2 := patchPostLikes db1 postId (post.likes + 1)
        if currentUser._id != post.userId then
          let notif : Notification :=
            { _id := db2.nextId, receiverId := post.userId,
              senderId := currentUser._id, type := "like", postId := postId }
          .ok true { db2 with notifications := db2.notifications ++ [notif],
                              nextId := db2.nextId + 1 }
        else
          .ok true db2

/-- Mutation `deletePost` of `posts.ts`: authenticate, fetch the post, verify
ownership, delete every like / comment / bookmark referencing the post, delete
the stored file, delete the post, and patch the caller's `posts` counter to
`Math.max(0, 2)`. -/
def deletePost (auth : Option String) (postId : Nat) (db : DB) : Res Unit :=
  match getAunthenticatedUser auth db with
  | .error e => .err e db
  | .ok currentUser =>
    match db.posts.find? (fun p => p._id == postId) with
    | none => .err "Post not found" db
    | some post =>
      if post.userId != currentUser._id then
        .err "Not authorized to delete this post" db
      else
        let db1 : DB := { db with likes := db.likes.filter fun l => l.postId != postId }
        let db2 : DB := { db1 with comments := db1.comments.filter fun c => c.postId != postId }
        let db3 : DB := { db2 with bookmarks := db2.bookmarks.filter fun b => b.postId != postId }
        let db4 : DB := { db3 with storage := db3.storage.filter fun s => s != post.storageId }
        let db5 : DB := { db4 with posts := db4.posts.filter fun p => p._id != postId }
        .ok () (patchUserPosts db5 currentUser._id (max 0 2))

/-- Number of `likes` records referencing a given post id. -/
def likeCount (db : DB) (postId : Nat) : Nat :=
  (db.likes.filter fun l => l.postId == postId).length

/-- The denormalisation invariant: every post's `likes` counter equals the
number of `likes` records referencing it. -/
def likesInv (db : DB) : Prop :=
  ∀ p ∈ db.posts, p.likes = (likeCount db p._id : Int)

/-- Well-formedness a real Convex database always has: every id that occurs is
below the fresh-id counter, and document ids are unique within a table. -/
def WF (db : DB) : Prop :=
  (∀ l ∈ db.likes, l._id < db.nextId ∧ l.postId < db.nextId) ∧
  (∀ p ∈ db.posts, p._id < db.nextId) ∧
  (db.likes.map (fun l => l._id)).Nodup ∧
  (db.posts.map (fun p => p._id)).Nodup

instance : DecidablePred likesInv := fun db => by
  unfold likesInv; infer_instance

instance : DecidablePred WF := fun db => by
  unfold WF; infer_instance

/-- The `likes` counter of the post with the given id, when it exists. -/
def postLikes (db : DB) (postId : Nat) : Option Int :=
  (db.posts.find? (fun p => p._id == postId)).map (fun p => p.likes)

/-- Whether the user has a `likes` record for the post. -/
def hasLike (db : DB) (userId postId : Nat) : Bool :=
  (db.likes.find? fun l => l.userId == userId && l.postId == postId).isSome

/-- Value carried by a result, with a fallback for errors. -/
def resVal {α : Type} (r : Res α) (fallback : α) : α :=
  match r with
  | .ok v _ => v
  | .err _ _ => fallback

/-- Database state carried by a result, with a fallback. -/
def resDB {α : Type} (r : Res α) (_fallback : DB) : DB :=
  match r with
  | .ok _ d => d
  | .err _ d => d

/-- Example user "alice" (id 1). -/
def exUserA : User :=
  { _id := 1, clerkId := "alice", username := "alice", image := "a.png", posts := 5 }

/-- Example user "bob" (id 2). -/
def exUserB : User :=
  { _id := 2, clerkId := "bob", username := "bob", image := "b.png", posts := 1 }

/-- Example post owned by bob, liked once. -/
def exPost : Post :=
  { _id := 10, userId := 2, imageUrl := "100", storageId := 100, caption := none,
    likes := 1, comments := 0, _creationTime := 0 }

/-- The example post after its like is removed. -/
def exPost0 : Post := { exPost with likes := 0 }

/-- Alice's like on bob's post. -/
def exLike : Like := { _id := 20, userId := 1, postId := 10 }

/-- A small consistent database: alice and bob, bob's post liked and
bookmarked by alice, one comment, two stored files. -/
def exDB : DB :=
  { users := [exUserA, exUserB], posts := [exPost],
    likes := [exLike], comments := [{ _id := 21, postId := 10 }],
    bookmarks := [{ _id := 22, userId := 1, postId := 10 }],
    notifications := [], storage := [100, 101], nextId := 30, nextTime := 1 }

/-- Example arguments for `createPost`, referencing stored file 100. -/
def exArgs : CreatePostArgs := { caption := some "hi", storageId := 100 }

/-- State after bob deletes his post in `exDB`. -/
def exDBdel : DB := resDB (deletePost (some "bob") 10 exDB) exDB

/-- State after alice creates a post in `exDB`. -/
def exDBcreate : DB := resDB (createPost (some "alice") exArgs exDB) exDB

/-- State after alice toggles (removes) her like in `exDB`. -/
def exT1 : DB := resDB (toggleLike (some "alice") 10 exDB) exDB

/-- State after alice toggles her like a second time (re-liking). -/
def exT2 : DB := resDB (toggleLike (some "alice") 10 exT1) exT1

/-- The feed alice sees in `exDB`. -/
def exFeed : List FeedPost := resVal (getFeedPosts (some "alice") exDB) []

/-- A degenerate state in which alice holds two like records on post 10 and
the post's counter is 2. -/
def dbDup : DB :=
  { users := [{ _id := 1, clerkId := "alice", username := "alice",
                image := "a.png", posts := 0 }],
    posts := [{ _id := 10, userId := 2, imageUrl := "100", storageId := 100,
                caption := none, likes := 2, comments := 0, _creationTime := 0 }],
    likes := [{ _id := 20, userId := 1, postId := 10 },
              { _id := 21, userId := 1, postId := 10 }],
    comments := [], bookmarks := [], notifications := [], storage := [100],
    nextId := 30, nextTime := 1 }

/-- `dbDup` after one toggle by alice. -/
def dbDup1 : DB := resDB (toggleLike (some "alice") 10 dbDup) dbDup

/-- `dbDup` after two toggles by alice. -/
def dbDup2 : DB := resDB (toggleLike (some "alice") 10 dbDup1) dbDup1


/-! ### Helper lemmas -/

lemma getAuth_eq_of_users_eq (auth : Option String) (dbA dbB : DB)
    (h : dbA.users = dbB.users) :
    getAunthenticatedUser auth dbA = getAunthenticatedUser auth dbB := by
  unfold getAunthenticatedUser
  cases auth with
  | none => rfl
  | some s => rw [h]


lemma deletePost_ok_shape (auth : Option String) (postId : Nat) (db db' : DB)
    (h : deletePost auth postId db = .ok () db') :
    ∃ u post, getAunthenticatedUser auth db = .ok u ∧
      db.posts.find? (fun p => p._id == postId) = some post ∧
      post.userId = u._id ∧
      db' = { users := db.users.map fun w =>
                if w._id == u._id then { w with posts := max 0 2 } else w,
              posts := db.posts.filter fun p => p._id != postId,
              likes := db.likes.filter fun l => l.postId != postId,
              comments := db.comments.filter fun c => c.postId != postId,
              bookmarks := db.bookmarks.filter fun b => b.postId != postId,
              notifications := db.notifications,
              storage := db.storage.filter fun s => s != post.storageId,
              nextId := db.nextId, nextTime := db.nextTime } := by
  unfold deletePost at h
  split at h
  · exact Res.noConfusion h
  next u hu =>
    split at h
    · exact Res.noConfusion h
    next post hp =>
      split at h
      · exact Res.noConfusion h
      next hown =>
        injection h with h1 h2
        refine ⟨u, post, hu, hp, ?_, h2.symm⟩
        simpa using hown

lemma createPost_ok_shape (auth : Option String) (args : CreatePostArgs)
    (db : DB) (r : Nat) (db' : DB)
    (h : createPost auth args db = .ok r db') :
    ∃ subject u url, auth = some subject ∧
      db.users.find? (fun x => x.clerkId == subject) = some u ∧
      storageGetUrl db args.storageId = some url ∧
      r = db.nextId ∧
      db' = { users := db.users.map fun w =>
                if w._id == u._id then { w with posts := u.posts + 1 } else w,
              posts := db.posts ++
                [{ _id := db.nextId, userId := u._id, imageUrl := url,
                   storageId := args.storageId, caption := args.caption,
                   likes := 0, comments := 0, _creationTime := db.nextTime }],
              likes := db.likes, comments := db.comments,
              bookmarks := db.bookmarks, notifications := db.notifications,
              storage := db.storage,
              nextId := db.nextId + 1, nextTime := db.nextTime + 1 } := by
  unfold createPost at h
  split at h
  · exact Res.noConfusion h
  next subject =>
    split at h
    · exact Res.noConfusion h
    next u hu =>
      split at h
      · exact Res.noConfusion h
      next url hurl =>
        injection h with h1 h2
        exact ⟨subject, u, url, rfl, hu, hurl, h1.symm, h2.symm⟩

lemma toggleLike_ok_shape (auth : Option String) (postId : Nat) (db : DB)
    (r : Bool) (db' : DB)
    (h : toggleLike auth postId db = .ok r db') :
    ∃ u post, getAunthenticatedUser auth db = .ok u ∧
      db.posts.find? (fun p => p._id == postId) = some post ∧
      ((∃ like, db.likes.find? (fun l => l.userId == u._id && l.postId == postId)
            = some like ∧ r = false ∧
          db' = { users := db.users,
                  posts := db.posts.map fun p =>
                    if p._id == postId then { p with likes := post.likes - 1 } else p,
                  likes := db.likes.filter fun l => l._id != like._id,
                  comments := db.comments, bookmarks := db.bookmarks,
                  notifications := db.notifications, storage := db.storage,
                  nextId := db.nextId, nextTime := db.nextTime }) ∨
       (db.likes.find? (fun l => l.userId == u._id && l.postId == postId) = none ∧
          r = true ∧ u._id ≠ post.userId ∧
          db' = { users := db.users,
                  posts := db.posts.map fun p =>
                    if p._id == postId then { p with likes := post.likes + 1 } else p,
                  likes := db.likes ++ [{ _id := db.nextId, userId := u._id, postId := postId }],
                  comments := db.comments, bookmarks := db.bookmarks,
                  notifications := db.notifications ++
                    [{ _id := db.nextId + 1, receiverId := post.userId,
                       senderId := u._id, type := "like", postId := postId }],
                  storage := db.storage,
                  nextId := db.nextId + 2, nextTime := db.nextTime }) ∨
       (db.likes.find? (fun l => l.userId == u._id && l.postId == postId) = none ∧
          r = true ∧ u._id = post.userId ∧
          db' = { users := db.users,
                  posts := db.posts.map fun p =>
                    if p._id == postId then { p with likes := post.likes + 1 } else p,
                  likes := db.likes ++ [{ _id := db.nextId, userId := u._id, postId := postId }],
                  comments := db.comments, bookmarks := db.bookmarks,
                  notifications := db.notifications, storage := db.storage,
                  nextId := db.nextId + 1, nextTime := db.nextTime })) := by
  unfold toggleLike at h
  split at h
  · exact Res.noConfusion h
  next u hu =>
    split at h
    · exact Res.noConfusion h
    next post hp =>
      cases hfind : db.likes.find? (fun l => l.userId == u._id && l.postId == postId) with
      | some like =>
        simp only [hfind] at h
        injection h with h1 h2
        exact ⟨u, post, hu, hp, Or.inl ⟨like, hfind, h1.symm, h2.symm⟩⟩
      | none =>
        simp only [hfind] at h
        split at h
        next hcond =>
          injection h with h1 h2
          refine ⟨u, post, hu, hp, Or.inr (Or.inl ⟨hfind, h1.symm, ?_, h2.symm⟩)⟩
          simpa using hcond
        next hcond =>
          injection h with h1 h2
          refine ⟨u, post, hu, hp, Or.inr (Or.inr ⟨hfind, h1.symm, ?_, h2.symm⟩)⟩
          simpa using hcond

lemma getFeedPosts_ok_shape (auth : Option String) (db : DB)
    (feed : List FeedPost) (db' : DB)
    (h : getFeedPosts auth db = .ok feed db') :
    ∃ u, getAunthenticatedUser auth db = .ok u ∧ db' = db ∧
      feed = db.posts.reverse.map fun post =>
        { post := post,
          author :=
            { _id := (db.users.find? fun x => x._id == post.userId).map fun x => x._id,
              username := (db.users.find? fun x => x._id == post.userId).map fun x => x.username,
              image := (db.users.find? fun x => x._id == post.userId).map fun x => x.image },
          isLiked := (db.likes.find? fun l =>
            l.userId == u._id && l.postId == post._id).isSome,
          isBookmarked := (db.bookmarks.find? fun b =>
            b.userId == u._id && b.postId == post._id).isSome } := by
  unfold getFeedPosts at h
  split at h
  · exact Res.noConfusion h
  next u hu =>
    simp only [List.length_reverse] at h
    split at h
    next hlen =>
      injection h with h1 h2
      refine ⟨u, hu, h2.symm, ?_⟩
      have hnil : db.posts = [] := by
        simpa using hlen
      rw [hnil, ← h1]
      rfl
    next hlen =>
      injection h with h1 h2
      exact ⟨u, hu, h2.symm, h1.symm⟩

/-! ### Claim theorems -/

/-- C7: every mutation of `posts.ts` (`generateUploadUrl`, `createPost`,
`toggleLike`, `deletePost`) invoked with no authenticated caller identity
throws `"Unauthorized"`, and the database state carried by the error is the
unchanged input state: no database or storage change is performed. -/
theorem unauthenticated_mutations_fail (db : DB) (args : CreatePostArgs) (postId : Nat) :
    generateUploadUrl none db = .err "Unauthorized" db ∧
    createPost none args db = .err "Unauthorized" db ∧
    toggleLike none postId db = .err "Unauthorized" db ∧
    deletePost none postId db = .err "Unauthorized" db :=
  ⟨rfl, rfl, rfl, rfl⟩

/-- C4: after a successful `deletePost`, every `users` record with the acting
user's id has its `posts` counter equal to the constant `2` (`Math.max(0, 2)`),
independent of its previous value. -/
theorem deletePost_counter_constant (auth : Option String) (postId : Nat)
    (db db' : DB) (u : User)
    (hu : getAunthenticatedUser auth db = .ok u)
    (h : deletePost auth postId db = .ok () db') :
    ∀ w ∈ db'.users, w._id = u._id → w.posts = 2 := by
  obtain ⟨u2, post, hu2, hp, hown, hdb⟩ := deletePost_ok_shape auth postId db db' h
  rw [hu] at hu2
  injection hu2 with hu2
  subst hu2
  subst hdb
  intro w hw hid
  simp only [List.mem_map] at hw
  obtain ⟨x, hx, rfl⟩ := hw
  by_cases hxe : x._id = u._id
  · simp only [hxe, beq_self_eq_true, if_pos]
    norm_num
  · rw [if_neg (by simpa using hxe)] at hid ⊢
    exact absurd hid hxe

/-- C6: when the authenticated caller is not the owner of an existing post,
`deletePost` throws `"Not authorized to delete this post"` and the state
carried by the error is the unchanged input state: nothing is deleted or
modified. -/
theorem deletePost_not_owner_rejected (auth : Option String) (postId : Nat)
    (db : DB) (u : User) (post : Post)
    (hu : getAunthenticatedUser auth db = .ok u)
    (hp : db.posts.find? (fun p => p._id == postId) = some post)
    (hne : post.userId ≠ u._id) :
    deletePost auth postId db = .err "Not authorized to delete this post" db := by
  unfold deletePost
  rw [hu, hp]
  simp [hne]

/-- C2: a successful `deletePost` leaves no `likes`, `comments` or `bookmarks`
record referencing the post, removes the post itself, and removes the post's
stored file from storage. -/
theorem deletePost_cascades (auth : Option String) (postId : Nat) (db db' : DB)
    (h : deletePost auth postId db = .ok () db') :
    (∀ l ∈ db'.likes, l.postId ≠ postId) ∧
    (∀ c ∈ db'.comments, c.postId ≠ postId) ∧
    (∀ b ∈ db'.bookmarks, b.postId ≠ postId) ∧
    (∀ p ∈ db'.posts, p._id ≠ postId) ∧
    (∀ post, db.posts.find? (fun p => p._id == postId) = some post →
      post.storageId ∉ db'.storage) := by
  obtain ⟨u, post, hu, hp, hown, hdb⟩ := deletePost_ok_shape auth postId db db' h
  subst hdb
  refine ⟨?_, ?_, ?_, ?_, ?_⟩
  · intro l hl
    simp only [List.mem_filter, bne_iff_ne, ne_eq] at hl
    exact hl.2
  · intro c hc
    simp only [List.mem_filter, bne_iff_ne, ne_eq] at hc
    exact hc.2
  · intro b hb
    simp only [List.mem_filter, bne_iff_ne, ne_eq] at hb
    exact hb.2
  · intro p hp2
    simp only [List.mem_filter, bne_iff_ne, ne_eq] at hp2
    exact hp2.2
  · intro post2 hp2
    rw [hp] at hp2
    injection hp2 with hp2
    subst hp2
    intro hmem
    simp at hmem

/-- C10: whenever `createPost` throws, the message is one of `"Unauthorized"`,
`"User not found"`, `"Image not found"`, and the state carried by the error is
the unchanged input state: every failure check precedes the first write. -/
theorem createPost_throw_unchanged (auth : Option String) (args : CreatePostArgs)
    (db : DB) (m : String) (db' : DB)
    (h : createPost auth args db = .err m db') :
    db' = db ∧ (m = "Unauthorized" ∨ m = "User not found" ∨ m = "Image not found") := by
  unfold createPost at h
  split at h
  · injection h with h1 h2
    exact ⟨h2.symm, Or.inl h1.symm⟩
  · split at h
    · injection h with h1 h2
      exact ⟨h2.symm, Or.inr (Or.inl h1.symm)⟩
    · split at h
      · injection h with h1 h2
        exact ⟨h2.symm, Or.inr (Or.inr h1.symm)⟩
      · exact Res.noConfusion h

/-- C3: a successful `createPost` by the user with the given Clerk id appends
exactly one new post whose `likes` and `comments` counters are 0, and sets
that user's `posts` counter to its previous value plus one. -/
theorem createPost_inserts_and_increments (auth : Option String)
    (args : CreatePostArgs) (db : DB) (r : Nat) (db' : DB)
    (subject : String) (u : User)
    (hauth : auth = some subject)
    (hu : db.users.find? (fun x => x.clerkId == subject) = some u)
    (h : createPost auth args db = .ok r db') :
    db'.posts.length = db.posts.length + 1 ∧
    (∃ p, db'.posts = db.posts ++ [p] ∧ p.likes = 0 ∧ p.comments = 0) ∧
    ({ u with posts := u.posts + 1 } : User) ∈ db'.users ∧
    (∀ w ∈ db'.users, w._id = u._id → w.posts = u.posts + 1) := by
  obtain ⟨subject2, u2, url, hauth2, hu2, hurl, hr, hdb⟩ :=
    createPost_ok_shape auth args db r db' h
  rw [hauth] at hauth2
  injection hauth2 with hs
  subst hs
  rw [hu] at hu2
  injection hu2 with hu2
  subst hu2
  subst hdb
  refine ⟨by simp, ⟨_, rfl, rfl, rfl⟩, ?_, ?_⟩
  · refine List.mem_map.mpr ⟨u, List.mem_of_find?_eq_some hu, ?_⟩
    simp
  · intro w hw hid
    simp only [List.mem_map] at hw
    obtain ⟨x, hx, rfl⟩ := hw
    by_cases hxe : x._id = u._id
    · simp [hxe]
    · rw [if_neg (by simpa using hxe)] at hid ⊢
      exact absurd hid hxe

/-- C8: a successful `getFeedPosts` returns the full posts table newest first:
the underlying posts of the feed are exactly `db.posts` reversed, and when the
table is stored in ascending creation order (as Convex stores documents) the
returned creation times are descending. -/
theorem getFeedPosts_reverse_chronological (auth : Option String) (db : DB)
    (feed : List FeedPost) (db' : DB)
    (h : getFeedPosts auth db = .ok feed db')
    (hchron : db.posts.Chain' fun a b => a._creationTime ≤ b._creationTime) :
    feed.map (fun f => f.post) = db.posts.reverse ∧
    (feed.map fun f => f.post._creationTime).Chain' (fun a b => b ≤ a) := by
  obtain ⟨u, hu, hdb, hfeed⟩ := getFeedPosts_ok_shape auth db feed db' h
  subst hfeed
  constructor
  · simp [List.map_map, Function.comp_def]
  · simp only [List.map_map]
    rw [List.map_reverse, List.chain'_reverse, List.chain'_map]
    exact hchron

/-- C9: a successful `toggleLike` returns `true` exactly when the caller had no
existing like on the post; it appends one notification of type `"like"` from
the caller to the post owner exactly when a like is created on someone else's
post, and appends none when unliking or when liking one's own post. -/
theorem toggleLike_notification_iff (auth : Option String) (postId : Nat)
    (db : DB) (r : Bool) (db' : DB) (u : User) (post : Post)
    (hu : getAunthenticatedUser auth db = .ok u)
    (hp : db.posts.find? (fun p => p._id == postId) = some post)
    (h : toggleLike auth postId db = .ok r db') :
    (r = true ↔
      db.likes.find? (fun l => l.userId == u._id && l.postId == postId) = none) ∧
    ((r = true ∧ u._id ≠ post.userId) →
      ∃ n, db'.notifications = db.notifications ++ [n] ∧
        n.type = "like" ∧ n.receiverId = post.userId ∧ n.senderId = u._id ∧
        n.postId = postId) ∧
    ((r = false ∨ u._id = post.userId) → db'.notifications = db.notifications) := by
  obtain ⟨u2, post2, hu2, hp2, hcase⟩ := toggleLike_ok_shape auth postId db r db' h
  rw [hu] at hu2
  injection hu2 with hu2
  subst hu2
  rw [hp] at hp2
  injection hp2 with hp2
  subst hp2
  rcases hcase with ⟨like, hfind, hr, hdb⟩ | ⟨hfind, hr, hne, hdb⟩ | ⟨hfind, hr, hown, hdb⟩
  · subst hr
    subst hdb
    refine ⟨?_, ?_, fun _ => rfl⟩
    · constructor
      · intro habs
        exact absurd habs (by simp)
      · intro hnone
        rw [hfind] at hnone
        exact Option.noConfusion hnone
    · rintro ⟨habs, -⟩
      exact absurd habs (by simp)
  · subst hr
    subst hdb
    refine ⟨⟨fun _ => hfind, fun _ => rfl⟩, ?_, ?_⟩
    · intro _
      exact ⟨_, rfl, rfl, rfl, rfl, rfl⟩
    · rintro (habs | habs)
      · exact absurd habs (by simp)
      · exact absurd habs hne
  · subst hr
    subst hdb
    refine ⟨⟨fun _ => hfind, fun _ => rfl⟩, ?_, fun _ => rfl⟩
    rintro ⟨-, hne⟩
    exact absurd hown hne

lemma length_filter_postId_remove (L : List Like) (a : Like) (ha : a ∈ L)
    (hnd : (L.map fun x => x._id).Nodup) (q : Nat) :
    ((L.filter fun x => x._id != a._id).filter fun x => x.postId == q).length
      + (if a.postId = q then 1 else 0)
      = (L.filter fun x => x.postId == q).length := by
  induction L with
  | nil => cases ha
  | cons b L ih =>
    simp only [List.map_cons, List.nodup_cons, List.mem_map] at hnd
    obtain ⟨hb, hndL⟩ := hnd
    rcases List.mem_cons.mp ha with rfl | haL
    · have hall : L.filter (fun x => x._id != a._id) = L := by
        rw [List.filter_eq_self]
        intro x hx
        simp only [bne_iff_ne, ne_eq, decide_eq_true_eq]
        intro hcontra
        exact hb ⟨x, hx, hcontra⟩
      rw [List.filter_cons]
      simp only [bne_self_eq_false, if_neg, Bool.false_eq_true, not_false_eq_true, hall]
      rw [List.filter_cons]
      by_cases hq : a.postId = q
      · simp [hq]
      · simp [hq]
    · have hbne : (b._id != a._id) = true := by
        simp only [bne_iff_ne, ne_eq]
        intro hcontra
        exact hb ⟨a, haL, hcontra.symm⟩
      rw [List.filter_cons, if_pos hbne, List.filter_cons, List.filter_cons]
      by_cases hq : b.postId = q
      · simp only [hq, beq_self_eq_true, if_pos, List.length_cons]
        have := ih haL hndL
        omega
      · have hq2 : (b.postId == q) = false := by simpa using hq
        simp only [hq2, Bool.false_eq_true, not_false_eq_true, if_neg]
        exact ih haL hndL

/-- C5: the invariant "every post's `likes` counter equals the number of
`likes` records referencing it" is preserved by `createPost`, `toggleLike` and
`deletePost` run to completion, from any well-formed state satisfying it. -/
theorem likesInv_preserved (auth : Option String) (args : CreatePostArgs)
    (postId : Nat) (db : DB) (hinv : likesInv db) (hwf : WF db) :
    (∀ r db', createPost auth args db = .ok r db' → likesInv db') ∧
    (∀ r db', toggleLike auth postId db = .ok r db' → likesInv db') ∧
    (∀ db', deletePost auth postId db = .ok () db' → likesInv db') := by
  obtain ⟨hwf1, hwf2, hwf3, hwf4⟩ := hwf
  refine ⟨?_, ?_, ?_⟩
  · intro r db' h
    obtain ⟨subject, u, url, ha2, hu, hurl, hr, hdb⟩ :=
      createPost_ok_shape auth args db r db' h
    subst hdb
    intro p hp
    simp only [List.mem_append, List.mem_singleton] at hp
    rcases hp with hmem | rfl
    · exact hinv p hmem
    · show (0 : Int) = (likeCount db db.nextId : Int)
      have hzero : likeCount db db.nextId = 0 := by
        unfold likeCount
        rw [List.length_eq_zero, List.filter_eq_nil_iff]
        intro l hl
        have h2 := (hwf1 l hl).2
        simp only [beq_iff_eq]
        omega
      rw [hzero]
      simp
  · intro r db' h
    obtain ⟨u, post, hu, hp, hcase⟩ := toggleLike_ok_shape auth postId db r db' h
    have hpostmem : post ∈ db.posts := List.mem_of_find?_eq_some hp
    have hpid : post._id = postId := by simpa using List.find?_some hp
    have hpost := hinv post hpostmem
    rw [hpid] at hpost
    unfold likeCount at hpost
    rcases hcase with ⟨like, hfind, hr, hdb⟩ | ⟨hfind, hr, hne, hdb⟩ |
      ⟨hfind, hr, hown, hdb⟩
    · subst hdb
      have hlmem : like ∈ db.likes := List.mem_of_find?_eq_some hfind
      have hlpid : like.postId = postId := by
        have h2 := List.find?_some hfind
        simp only [Bool.and_eq_true, beq_iff_eq] at h2
        exact h2.2
      intro p hp2
      simp only [List.mem_map] at hp2
      obtain ⟨x, hx, rfl⟩ := hp2
      have hx2 := hinv x hx
      unfold likeCount at hx2
      by_cases hxe : x._id = postId
      · rw [if_pos (by simpa using hxe)]
        unfold likeCount
        dsimp only
        rw [hxe]
        have hcnt := length_filter_postId_remove db.likes like hlmem hwf3 postId
        rw [if_pos hlpid] at hcnt
        omega
      · rw [if_neg (by simpa using hxe)]
        unfold likeCount
        dsimp only
        have hcnt := length_filter_postId_remove db.likes like hlmem hwf3 x._id
        rw [if_neg (by rw [hlpid]; exact fun hc => hxe hc.symm)] at hcnt
        omega
    · subst hdb
      intro p hp2
      simp only [List.mem_map] at hp2
      obtain ⟨x, hx, rfl⟩ := hp2
      have hx2 := hinv x hx
      unfold likeCount at hx2
      by_cases hxe : x._id = postId
      · rw [if_pos (by simpa using hxe)]
        unfold likeCount
        dsimp only
        rw [hxe, List.filter_append]
        simp only [List.filter_cons, List.filter_nil, beq_self_eq_true, if_pos,
          List.length_append, List.length_cons, List.length_nil]
        omega
      · rw [if_neg (by simpa using hxe)]
        unfold likeCount
        dsimp only
        rw [List.filter_append]
        have hbe : (postId == x._id) = false := by
          simpa using fun hc : postId = x._id => hxe hc.symm
        simp only [List.filter_cons, List.filter_nil, hbe, Bool.false_eq_true,
          not_false_eq_true, if_neg, List.append_nil]
        omega
    · subst hdb
      intro p hp2
      simp only [List.mem_map] at hp2
      obtain ⟨x, hx, rfl⟩ := hp2
      have hx2 := hinv x hx
      unfold likeCount at hx2
      by_cases hxe : x._id = postId
      · rw [if_pos (by simpa using hxe)]
        unfold likeCount
        dsimp only
        rw [hxe, List.filter_append]
        simp only [List.filter_cons, List.filter_nil, beq_self_eq_true, if_pos,
          List.length_append, List.length_cons, List.length_nil]
        omega
      · rw [if_neg (by simpa using hxe)]
        unfold likeCount
        dsimp only
        rw [List.filter_append]
        have hbe : (postId == x._id) = false := by
          simpa using fun hc : postId = x._id => hxe hc.symm
        simp only [List.filter_cons, List.filter_nil, hbe, Bool.false_eq_true,
          not_false_eq_true, if_neg, List.append_nil]
        omega
  · intro db' h
    obtain ⟨u, post, hu, hp, hown, hdb⟩ := deletePost_ok_shape auth postId db db' h
    subst hdb
    intro p hp2
    simp only [List.mem_filter, bne_iff_ne, ne_eq] at hp2
    obtain ⟨hmem, hne⟩ := hp2
    have hx2 := hinv p hmem
    unfold likeCount at hx2
    unfold likeCount
    dsimp only
    rw [List.filter_filter]
    have hcongr : ∀ a ∈ db.likes,
        ((a.postId == p._id) && (a.postId != postId)) = (a.postId == p._id) := by
      intro a ha
      by_cases hc : a.postId = p._id
      · simp [hc, hne]
      · simp [hc]
    rw [List.filter_congr hcongr]
    exact hx2

lemma eq_singleton_of_mem_of_length_le_one {α : Type} (l : List α) (a : α)
    (ha : a ∈ l) (hl : l.length ≤ 1) : l = [a] := by
  cases l with
  | nil => cases ha
  | cons b t =>
    cases t with
    | nil =>
      simp only [List.mem_singleton] at ha
      subst ha
      rfl
    | cons c t2 =>
      simp only [List.length_cons] at hl
      omega

lemma find?_id_map_patch (posts : List Post) (postId : Nat) (v : Int) :
    (posts.map fun p => if p._id == postId then { p with likes := v } else p).find?
        (fun p => p._id == postId)
      = (posts.find? fun p => p._id == postId).map
          (fun p => if p._id == postId then { p with likes := v } else p) := by
  rw [List.find?_map]
  have hfun : ((fun p : Post => p._id == postId) ∘ fun p =>
      if p._id == postId then { p with likes := v } else p)
        = fun p : Post => p._id == postId := by
    funext p
    by_cases h : (p._id == postId) = true
    · simp [Function.comp, h]
    · simp [Function.comp, h]
  rw [hfun]

/-- C1 (amended): provided the authenticated caller holds at most one `likes`
record for the post beforehand (as in any state Convex itself produces),
calling `toggleLike` twice in succession with the same post id returns the
post's likes counter to its original value and restores the original
existence / non-existence of the caller's like record. -/
theorem toggleLike_twice_restores (auth : Option String) (postId : Nat) (db : DB)
    (u : User) (hu : getAunthenticatedUser auth db = .ok u)
    (hone : (db.likes.filter fun l =>
      l.userId == u._id && l.postId == postId).length ≤ 1)
    (r1 r2 : Bool) (db1 db2 : DB)
    (h1 : toggleLike auth postId db = .ok r1 db1)
    (h2 : toggleLike auth postId db1 = .ok r2 db2) :
    postLikes db2 postId = postLikes db postId ∧
    hasLike db2 u._id postId = hasLike db u._id postId := by
  obtain ⟨uA, postA, huA, hpA, hcaseA⟩ := toggleLike_ok_shape auth postId db r1 db1 h1
  rw [hu] at huA
  injection huA with huA
  subst huA
  have hpid_eq : postA._id = postId := by
    have h3 := List.find?_some hpA
    simpa using h3
  have hpidA : (postA._id == postId) = true := by simpa using hpid_eq
  rcases hcaseA with ⟨like, hfind, hr1, hdb1⟩ | ⟨hfind, hr1, hneA, hdb1⟩ |
    ⟨hfind, hr1, hownA, hdb1⟩
  · -- first call removed an existing like
    have hlmem : like ∈ db.likes := List.mem_of_find?_eq_some hfind
    have hlF : (like.userId == u._id && like.postId == postId) = true := by
      have h3 := List.find?_some hfind
      simpa using h3
    have hfilter : db.likes.filter
        (fun l => l.userId == u._id && l.postId == postId) = [like] :=
      eq_singleton_of_mem_of_length_le_one _ _
        (List.mem_filter.mpr ⟨hlmem, hlF⟩) hone
    have hnone1 : (db.likes.filter fun l => l._id != like._id).find?
        (fun l => l.userId == u._id && l.postId == postId) = none := by
      rw [List.find?_eq_none]
      intro x hx hFx
      rw [List.mem_filter] at hx
      have hx2 : x ∈ db.likes.filter
          (fun l => l.userId == u._id && l.postId == postId) :=
        List.mem_filter.mpr ⟨hx.1, hFx⟩
      rw [hfilter, List.mem_singleton] at hx2
      subst hx2
      simp at hx
    have husers1 : db1.users = db.users := by rw [hdb1]
    have hposts1 : db1.posts = db.posts.map (fun p =>
        if p._id == postId then { p with likes := postA.likes - 1 } else p) := by
      rw [hdb1]
    have hlikes1 : db1.likes = db.likes.filter (fun l => l._id != like._id) := by
      rw [hdb1]
    obtain ⟨uB, postB, huB, hpB, hcaseB⟩ :=
      toggleLike_ok_shape auth postId db1 r2 db2 h2
    rw [getAuth_eq_of_users_eq auth db1 db husers1, hu] at huB
    injection huB with huB
    subst huB
    rw [hposts1, find?_id_map_patch, hpA] at hpB
    simp only [Option.map_some'] at hpB
    rw [if_pos hpidA] at hpB
    injection hpB with hpB
    subst hpB
    have hfindB : db1.likes.find?
        (fun l => l.userId == u._id && l.postId == postId) = none := by
      rw [hlikes1]
      exact hnone1
    rcases hcaseB with ⟨likeB, hfindB2, hr2, hdb2⟩ | ⟨hfindB2, hr2, hneB, hdb2⟩ |
      ⟨hfindB2, hr2, hownB, hdb2⟩
    · rw [hfindB] at hfindB2
      exact Option.noConfusion hfindB2
    · constructor
      · have hposts2 : db2.posts = db1.posts.map (fun p =>
            if p._id == postId then { p with likes := postA.likes - 1 + 1 } else p) := by
          rw [hdb2]
        unfold postLikes
        rw [hposts2, hposts1, find?_id_map_patch, find?_id_map_patch, hpA]
        simp [hpid_eq, sub_add_cancel]
      · have hlikes2 : db2.likes = db1.likes ++
            [{ _id := db1.nextId, userId := u._id, postId := postId }] := by
          rw [hdb2]
        unfold hasLike
        rw [hlikes2, List.find?_append, hfindB, hfind]
        simp
    · constructor
      · have hposts2 : db2.posts = db1.posts.map (fun p =>
            if p._id == postId then { p with likes := postA.likes - 1 + 1 } else p) := by
          rw [hdb2]
        unfold postLikes
        rw [hposts2, hposts1, find?_id_map_patch, find?_id_map_patch, hpA]
        simp [hpid_eq, sub_add_cancel]
      · have hlikes2 : db2.likes = db1.likes ++
            [{ _id := db1.nextId, userId := u._id, postId := postId }] := by
          rw [hdb2]
        unfold hasLike
        rw [hlikes2, List.find?_append, hfindB, hfind]
        simp
  · -- first call inserted a like (and a notification)
    have husers1 : db1.users = db.users := by rw [hdb1]
    have hposts1 : db1.posts = db.posts.map (fun p =>
        if p._id == postId then { p with likes := postA.likes + 1 } else p) := by
      rw [hdb1]
    have hlikes1 : db1.likes = db.likes ++
        [{ _id := db.nextId, userId := u._id, postId := postId }] := by
      rw [hdb1]
    have hfindB : db1.likes.find?
        (fun l => l.userId == u._id && l.postId == postId)
          = some { _id := db.nextId, userId := u._id, postId := postId } := by
      rw [hlikes1, List.find?_append, hfind]
      simp
    obtain ⟨uB, postB, huB, hpB, hcaseB⟩ :=
      toggleLike_ok_shape auth postId db1 r2 db2 h2
    rw [getAuth_eq_of_users_eq auth db1 db husers1, hu] at huB
    injection huB with huB
    subst huB
    rw [hposts1, find?_id_map_patch, hpA] at hpB
    simp only [Option.map_some'] at hpB
    rw [if_pos hpidA] at hpB
    injection hpB with hpB
    subst hpB
    rcases hcaseB with ⟨likeB, hfindB2, hr2, hdb2⟩ | ⟨hfindB2, hr2, hneB, hdb2⟩ |
      ⟨hfindB2, hr2, hownB, hdb2⟩
    · rw [hfindB] at hfindB2
      injection hfindB2 with hlikeB
      subst hlikeB
      constructor
      · have hposts2 : db2.posts = db1.posts.map (fun p =>
            if p._id == postId then { p with likes := postA.likes + 1 - 1 } else p) := by
          rw [hdb2]
        unfold postLikes
        rw [hposts2, hposts1, find?_id_map_patch, find?_id_map_patch, hpA]
        simp [hpid_eq, add_sub_cancel_right]
      · have hlikes2 : db2.likes = db1.likes.filter
            (fun l => l._id != db.nextId) := by
          rw [hdb2]
        unfold hasLike
        have hnone2 : (db1.likes.filter
            (fun l => l._id != db.nextId)).find?
              (fun l => l.userId == u._id && l.postId == postId) = none := by
          rw [List.find?_eq_none]
          intro x hx hFx
          rw [List.mem_filter, hlikes1, List.mem_append] at hx
          rcases hx.1 with hxdb | hxnew
          · exact absurd hFx (List.find?_eq_none.mp hfind x hxdb)
          · rw [List.mem_singleton] at hxnew
            subst hxnew
            simp at hx
        rw [hlikes2, hnone2, hfind]
    · rw [hfindB] at hfindB2
      exact Option.noConfusion hfindB2
    · rw [hfindB] at hfindB2
      exact Option.noConfusion hfindB2
  · -- first call inserted a like on the caller's own post
    have husers1 : db1.users = db.users := by rw [hdb1]
    have hposts1 : db1.posts = db.posts.map (fun p =>
        if p._id == postId then { p with likes := postA.likes + 1 } else p) := by
      rw [hdb1]
    have hlikes1 : db1.likes = db.likes ++
        [{ _id := db.nextId, userId := u._id, postId := postId }] := by
      rw [hdb1]
    have hfindB : db1.likes.find?
        (fun l => l.userId == u._id && l.postId == postId)
          = some { _id := db.nextId, userId := u._id, postId := postId } := by
      rw [hlikes1, List.find?_append, hfind]
      simp
    obtain ⟨uB, postB, huB, hpB, hcaseB⟩ :=
      toggleLike_ok_shape auth postId db1 r2 db2 h2
    rw [getAuth_eq_of_users_eq auth db1 db husers1, hu] at huB
    injection huB with huB
    subst huB
    rw [hposts1, find?_id_map_patch, hpA] at hpB
    simp only [Option.map_some'] at hpB
    rw [if_pos hpidA] at hpB
    injection hpB with hpB
    subst hpB
    rcases hcaseB with ⟨likeB, hfindB2, hr2, hdb2⟩ | ⟨hfindB2, hr2, hneB, hdb2⟩ |
      ⟨hfindB2, hr2, hownB, hdb2⟩
    · rw [hfindB] at hfindB2
      injection hfindB2 with hlikeB
      subst hlikeB
      constructor
      · have hposts2 : db2.posts = db1.posts.map (fun p =>
            if p._id == postId then { p with likes := postA.likes + 1 - 1 } else p) := by
          rw [hdb2]
        unfold postLikes
        rw [hposts2, hposts1, find?_id_map_patch, find?_id_map_patch, hpA]
        simp [hpid_eq, add_sub_cancel_right]
      · have hlikes2 : db2.likes = db1.likes.filter
            (fun l => l._id != db.nextId) := by
          rw [hdb2]
        unfold hasLike
        have hnone2 : (db1.likes.filter
            (fun l => l._id != db.nextId)).find?
              (fun l => l.userId == u._id && l.postId == postId) = none := by
          rw [List.find?_eq_none]
          intro x hx hFx
          rw [List.mem_filter, hlikes1, List.mem_append] at hx
          rcases hx.1 with hxdb | hxnew
          · exact absurd hFx (List.find?_eq_none.mp hfind x hxdb)
          · rw [List.mem_singleton] at hxnew
            subst hxnew
            simp at hx
        rw [hlikes2, hnone2, hfind]
    · rw [hfindB] at hfindB2
      exact Option.noConfusion hfindB2
    · rw [hfindB] at hfindB2
      exact Option.noConfusion hfindB2

/-- C1 counterexample: in `dbDup` the authenticated caller alice holds two
like records on the existing post 10 whose counter is 2; toggling twice
leaves the counter at 0 instead of 2 and removes her like record instead of
restoring it, so the claim as stated fails on this database state. -/
theorem toggleLike_twice_cex :
    toggleLike (some "alice") 10 dbDup = .ok false dbDup1 ∧
    toggleLike (some "alice") 10 dbDup1 = .ok false dbDup2 ∧
    postLikes dbDup 10 = some 2 ∧
    postLikes dbDup2 10 = some 0 ∧
    hasLike dbDup 1 10 = true ∧
    hasLike dbDup2 1 10 = false :=
  ⟨rfl, rfl, rfl, rfl, rfl, rfl⟩

/-- Witness for the amended C1 theorem at the concrete state `exDB`. -/
theorem toggleLike_twice_restores_witness :
    getAunthenticatedUser (some "alice") exDB = .ok exUserA ∧
    (exDB.likes.filter fun l =>
      l.userId == exUserA._id && l.postId == 10).length ≤ 1 ∧
    toggleLike (some "alice") 10 exDB = .ok false exT1 ∧
    toggleLike (some "alice") 10 exT1 = .ok true exT2 ∧
    (postLikes exT2 10 = postLikes exDB 10 ∧
      hasLike exT2 exUserA._id 10 = hasLike exDB exUserA._id 10) :=
  ⟨rfl, by decide, rfl, rfl,
    toggleLike_twice_restores (some "alice") 10 exDB exUserA rfl (by decide)
      false true exT1 exT2 rfl rfl⟩

/-- Witness for C2 at the concrete state `exDB`. -/
theorem deletePost_cascades_witness :
    deletePost (some "bob") 10 exDB = .ok () exDBdel ∧
    ((∀ l ∈ exDBdel.likes, l.postId ≠ 10) ∧
     (∀ c ∈ exDBdel.comments, c.postId ≠ 10) ∧
     (∀ b ∈ exDBdel.bookmarks, b.postId ≠ 10) ∧
     (∀ p ∈ exDBdel.posts, p._id ≠ 10) ∧
     (∀ post, exDB.posts.find? (fun p => p._id == 10) = some post →
       post.storageId ∉ exDBdel.storage)) :=
  ⟨rfl, deletePost_cascades (some "bob") 10 exDB exDBdel rfl⟩

/-- Witness for C3 at the concrete state `exDB`. -/
theorem createPost_inserts_and_increments_witness :
    (some "alice" : Option String) = some "alice" ∧
    exDB.users.find? (fun x => x.clerkId == "alice") = some exUserA ∧
    createPost (some "alice") exArgs exDB = .ok 30 exDBcreate ∧
    (exDBcreate.posts.length = exDB.posts.length + 1 ∧
     (∃ p, exDBcreate.posts = exDB.posts ++ [p] ∧ p.likes = 0 ∧ p.comments = 0) ∧
     ({ exUserA with posts := exUserA.posts + 1 } : User) ∈ exDBcreate.users ∧
     (∀ w ∈ exDBcreate.users, w._id = exUserA._id → w.posts = exUserA.posts + 1)) :=
  ⟨rfl, rfl, rfl,
    createPost_inserts_and_increments (some "alice") exArgs exDB 30 exDBcreate
      "alice" exUserA rfl rfl rfl⟩

/-- Witness for C4 at the concrete state `exDB`. -/
theorem deletePost_counter_constant_witness :
    getAunthenticatedUser (some "bob") exDB = .ok exUserB ∧
    deletePost (some "bob") 10 exDB = .ok () exDBdel ∧
    (∀ w ∈ exDBdel.users, w._id = exUserB._id → w.posts = 2) :=
  ⟨rfl, rfl,
    deletePost_counter_constant (some "bob") 10 exDB exDBdel exUserB rfl rfl⟩

/-- Witness for C5 at the concrete state `exDB`. -/
theorem likesInv_preserved_witness :
    likesInv exDB ∧ WF exDB ∧
    ((∀ r db', createPost (some "alice") exArgs exDB = .ok r db' → likesInv db') ∧
     (∀ r db', toggleLike (some "alice") 10 exDB = .ok r db' → likesInv db') ∧
     (∀ db', deletePost (some "alice") 10 exDB = .ok () db' → likesInv db')) :=
  ⟨by decide, by decide,
    likesInv_preserved (some "alice") exArgs 10 exDB (by decide) (by decide)⟩

/-- Witness for C6 at the concrete state `exDB`: alice cannot delete bob's
post. -/
theorem deletePost_not_owner_rejected_witness :
    getAunthenticatedUser (some "alice") exDB = .ok exUserA ∧
    exDB.posts.find? (fun p => p._id == 10) = some exPost ∧
    exPost.userId ≠ exUserA._id ∧
    deletePost (some "alice") 10 exDB = .err "Not authorized to delete this post" exDB :=
  ⟨rfl, rfl, by decide,
    deletePost_not_owner_rejected (some "alice") 10 exDB exUserA exPost rfl rfl
      (by decide)⟩

/-- Witness for C8 at the concrete state `exDB`. -/
theorem getFeedPosts_reverse_chronological_witness :
    getFeedPosts (some "alice") exDB = .ok exFeed exDB ∧
    exDB.posts.Chain' (fun a b => a._creationTime ≤ b._creationTime) ∧
    (exFeed.map (fun f => f.post) = exDB.posts.reverse ∧
      (exFeed.map fun f => f.post._creationTime).Chain' (fun a b => b ≤ a)) :=
  ⟨rfl, by simp [exDB],
    getFeedPosts_reverse_chronological (some "alice") exDB exFeed exDB rfl
      (by simp [exDB])⟩

/-- Witness for C9 at the concrete state `exT1`: alice re-likes bob's post,
which notifies bob. -/
theorem toggleLike_notification_iff_witness :
    getAunthenticatedUser (some "alice") exT1 = .ok exUserA ∧
    exT1.posts.find? (fun p => p._id == 10) = some exPost0 ∧
    toggleLike (some "alice") 10 exT1 = .ok true exT2 ∧
    ((true = true ↔
        exT1.likes.find? (fun l =>
          l.userId == exUserA._id && l.postId == 10) = none) ∧
     ((true = true ∧ exUserA._id ≠ exPost0.userId) →
       ∃ n, exT2.notifications = exT1.notifications ++ [n] ∧
         n.type = "like" ∧ n.receiverId = exPost0.userId ∧
         n.senderId = exUserA._id ∧ n.postId = 10) ∧
     ((true = false ∨ exUserA._id = exPost0.userId) →
       exT2.notifications = exT1.notifications)) :=
  ⟨rfl, rfl, rfl,
    toggleLike_notification_iff (some "alice") 10 exT1 true exT2 exUserA exPost0
      rfl rfl rfl⟩

/-- Witness for C10 at the concrete state `exDB`: an unauthenticated
`createPost` throws and leaves the state unchanged. -/
theorem createPost_throw_unchanged_witness :
    createPost none exArgs exDB = .err "Unauthorized" exDB ∧
    (exDB = exDB ∧ ("Unauthorized" = "Unauthorized" ∨ "Unauthorized" = "User not found" ∨
      "Unauthorized" = "Image not found")) :=
  ⟨rfl, createPost_throw_unchanged none exArgs exDB "Unauthorized" exDB rfl⟩
